import Mathlib

/-!
The class `RegSet` of x64asm (src/reg_set.h): a shallow embedding.

`RegSet` packs the x86-64 register file into four `uint64_t` lanes
(`group1_` .. `group4_`).  Every operation of the class is mask arithmetic on
these lanes.  The embedding below represents a `uint64_t` as a natural number
below `2 ^ 64`; the operations that can leave that range in unbounded
arithmetic (left shift, subtraction, bitwise NOT) are reduced modulo `2 ^ 64`
explicitly.

The register operand types (`Rl`, `Rh`, ..., `Mxcsr`) are declared in headers
outside `reg_set.h`; the only thing `RegSet` reads from them is the integer
`val_` (or `index()`), so an operand is modelled as a tag plus that integer.
-/

namespace x64asm

/-! ## 64-bit machine arithmetic -/

/-- The C++ expression `x << s` on `uint64_t` (meaningful for `s < 64`; a
larger shift count is undefined behaviour in C++, the model then yields `0`). -/
def shl64 (x s : Nat) : Nat := (x <<< s) % 2 ^ 64

/-- The C++ expression `x >> s` on `uint64_t` (meaningful for `s < 64`). -/
def shr64 (x s : Nat) : Nat := x >>> s

/-- The C++ expression `a - b` on `uint64_t`: subtraction wraps around. -/
def sub64 (a b : Nat) : Nat := (a + 2 ^ 64 - b % 2 ^ 64) % 2 ^ 64

/-- The C++ expression `~x` on `uint64_t`. -/
def not64 (x : Nat) : Nat := (2 ^ 64 - 1) ^^^ (x % 2 ^ 64)

/-! ## `enum class Mask : uint64_t` -/

namespace Mask

-- Group 1
def LOW : Nat := 0x0000000000000001
def HIGH : Nat := 0x0000000000010000
def WORD : Nat := 0x0000000000010001
def DOUBLE : Nat := 0x0000000100010001
def QUAD : Nat := 0x0001000100010001

-- Group 2
def XMM : Nat := 0x0000000000000001
def YMM : Nat := 0x0000000000010001
def MM : Nat := 0x0000000100000000
def ST : Nat := 0x0000010000000000
def SREG : Nat := 0x0001000000000000
def DATA : Nat := 0x0100000000000000
def INSTR : Nat := 0x0200000000000000
def OPCODE : Nat := 0x0400000000000000
def RIP : Nat := 0x0800000000000000

-- Group 3
def EFLAG : Nat := 0x0000000000000001
def CONTROL : Nat := 0x0000000100000000
def STATUS : Nat := 0x0001000000000000

-- Group 4
def TAG : Nat := 0x0000000000000001
def MXCSR : Nat := 0x0000000000010000

-- Top and Bottom
def EMPTY : Nat := 0x0000000000000000
def UNIV1 : Nat := 0xffffffffffffffff
def UNIV2 : Nat := 0x0f3fffffffffffff
def UNIV3 : Nat := 0xe7ff1a3f003f6fd5
def UNIV4 : Nat := 0x00000000dfffaaaa

end Mask

/-! ## Register operands -/

/-- The operand types accepted by `RegSet::operator+=` and `RegSet::contains`,
one constructor per overload.  The argument is the operand's `val_` field
(`index()` for the five bit-indexed classes `Eflags` .. `Mxcsr`). -/
inductive Elem where
  | Rl (val_ : Nat)
  | Rh (val_ : Nat)
  | Rb (val_ : Nat)
  | R16 (val_ : Nat)
  | R32 (val_ : Nat)
  | R64 (val_ : Nat)
  | Xmm (val_ : Nat)
  | Ymm (val_ : Nat)
  | Mm (val_ : Nat)
  | St (val_ : Nat)
  | Sreg (val_ : Nat)
  | FpuData (val_ : Nat)
  | FpuInstruction (val_ : Nat)
  | FpuOpcode (val_ : Nat)
  | Rip (val_ : Nat)
  | Eflags (index : Nat)
  | FpuControl (index : Nat)
  | FpuStatus (index : Nat)
  | FpuTag (index : Nat)
  | Mxcsr (index : Nat)
deriving DecidableEq, Repr

/-- The documented index range of each operand class: general purpose, XMM
and YMM registers 0-15, high-byte registers 4-7, MMX and x87 stack registers
0-7, segment registers 0-5, the four pseudo-registers 0, EFLAGS bits 0-31,
FPU control / status / tag and MXCSR bits 0-15. -/
def Elem.inRange : Elem → Bool
  | .Rl v => decide (v < 16)
  | .Rh v => decide (4 ≤ v) && decide (v < 8)
  | .Rb v => decide (v < 16)
  | .R16 v => decide (v < 16)
  | .R32 v => decide (v < 16)
  | .R64 v => decide (v < 16)
  | .Xmm v => decide (v < 16)
  | .Ymm v => decide (v < 16)
  | .Mm v => decide (v < 8)
  | .St v => decide (v < 8)
  | .Sreg v => decide (v < 6)
  | .FpuData v => decide (v = 0)
  | .FpuInstruction v => decide (v = 0)
  | .FpuOpcode v => decide (v = 0)
  | .Rip v => decide (v = 0)
  | .Eflags i => decide (i < 32)
  | .FpuControl i => decide (i < 16)
  | .FpuStatus i => decide (i < 16)
  | .FpuTag i => decide (i < 16)
  | .Mxcsr i => decide (i < 16)

/-! ## `class RegSet` -/

/-- The four private `uint64_t` members of `RegSet`. -/
structure RegSet where
  group1_ : Nat
  group2_ : Nat
  group3_ : Nat
  group4_ : Nat
deriving DecidableEq, Repr

namespace RegSet

/-- Every lane is a `uint64_t` value. -/
def IsU64 (s : RegSet) : Prop :=
  s.group1_ < 2 ^ 64 ∧ s.group2_ < 2 ^ 64 ∧ s.group3_ < 2 ^ 64 ∧ s.group4_ < 2 ^ 64

instance (s : RegSet) : Decidable s.IsU64 := by
  unfold IsU64; infer_instance

/-- `RegSet::empty()`. -/
def empty : RegSet := ⟨Mask.EMPTY, Mask.EMPTY, Mask.EMPTY, Mask.EMPTY⟩

/-- `RegSet::universe()` (`universe` alone is a reserved word of Lean). -/
def universe_ : RegSet := ⟨Mask.UNIV1, Mask.UNIV2, Mask.UNIV3, Mask.UNIV4⟩

/-- `RegSet::operator~`. -/
def compl (s : RegSet) : RegSet :=
  ⟨not64 s.group1_, not64 s.group2_, not64 s.group3_, not64 s.group4_⟩

/-- `RegSet::operator&=`: the receiver after the call. -/
def andAssign (s rhs : RegSet) : RegSet :=
  ⟨s.group1_ &&& rhs.group1_, s.group2_ &&& rhs.group2_,
   s.group3_ &&& rhs.group3_, s.group4_ &&& rhs.group4_⟩

/-- `RegSet::operator|=`: the receiver after the call. -/
def orAssign (s rhs : RegSet) : RegSet :=
  ⟨s.group1_ ||| rhs.group1_, s.group2_ ||| rhs.group2_,
   s.group3_ ||| rhs.group3_, s.group4_ ||| rhs.group4_⟩

/-- `RegSet::operator-=`: the receiver after the call. -/
def subAssign (s rhs : RegSet) : RegSet :=
  ⟨s.group1_ &&& not64 rhs.group1_, s.group2_ &&& not64 rhs.group2_,
   s.group3_ &&& not64 rhs.group3_, s.group4_ &&& not64 rhs.group4_⟩

/-- `RegSet::operator&`: copies the receiver and applies `&=`. -/
def and (s rhs : RegSet) : RegSet := s.andAssign rhs

/-- `RegSet::operator|`: copies the receiver and applies `|=`. -/
def or (s rhs : RegSet) : RegSet := s.orAssign rhs

/-- `RegSet::operator-`: copies the receiver and applies `-=`. -/
def sub (s rhs : RegSet) : RegSet := s.subAssign rhs

/-- `RegSet::operator==`. -/
def eq (s rhs : RegSet) : Bool :=
  decide (s.group1_ = rhs.group1_) && decide (s.group2_ = rhs.group2_) &&
    decide (s.group3_ = rhs.group3_) && decide (s.group4_ = rhs.group4_)

/-- `RegSet::operator!=`. -/
def ne (s rhs : RegSet) : Bool := !(s.eq rhs)

/-- `RegSet::operator+=`, one case per overload: the receiver after the call. -/
def addAssign (s : RegSet) : Elem → RegSet
  | .Rl v => { s with group1_ := s.group1_ ||| shl64 Mask.LOW v }
  | .Rh v => { s with group1_ := s.group1_ ||| shl64 Mask.HIGH (sub64 v 4) }
  | .Rb v => { s with group1_ := s.group1_ ||| shl64 Mask.LOW v }
  | .R16 v => { s with group1_ := s.group1_ ||| shl64 Mask.WORD v }
  | .R32 v => { s with group1_ := s.group1_ ||| shl64 Mask.DOUBLE v }
  | .R64 v => { s with group1_ := s.group1_ ||| shl64 Mask.QUAD v }
  | .Xmm v => { s with group2_ := s.group2_ ||| shl64 Mask.XMM v }
  | .Ymm v => { s with group2_ := s.group2_ ||| shl64 Mask.YMM v }
  | .Mm v => { s with group2_ := s.group2_ ||| shl64 Mask.MM v }
  | .St v => { s with group2_ := s.group2_ ||| shl64 Mask.ST v }
  | .Sreg v => { s with group2_ := s.group2_ ||| shl64 Mask.SREG v }
  | .FpuData v => { s with group2_ := s.group2_ ||| shl64 Mask.DATA v }
  | .FpuInstruction v => { s with group2_ := s.group2_ ||| shl64 Mask.INSTR v }
  | .FpuOpcode v => { s with group2_ := s.group2_ ||| shl64 Mask.OPCODE v }
  | .Rip v => { s with group2_ := s.group2_ ||| shl64 Mask.RIP v }
  | .Eflags i => { s with group3_ := s.group3_ ||| shl64 Mask.EFLAG i }
  | .FpuControl i => { s with group3_ := s.group3_ ||| shl64 Mask.CONTROL i }
  | .FpuStatus i => { s with group3_ := s.group3_ ||| shl64 Mask.STATUS i }
  | .FpuTag i => { s with group4_ := s.group4_ ||| shl64 Mask.TAG i }
  | .Mxcsr i => { s with group4_ := s.group4_ ||| shl64 Mask.MXCSR i }

/-- `RegSet::operator+`: copies the receiver and applies `+=`. -/
def add (s : RegSet) (rhs : Elem) : RegSet := s.addAssign rhs

/-- `RegSet::contains`, one case per overload. -/
def contains (s : RegSet) : Elem → Bool
  | .Rl v => decide (shr64 s.group1_ v &&& Mask.LOW = Mask.LOW)
  | .Rh v => decide (shr64 s.group1_ (sub64 v 4) &&& Mask.HIGH = Mask.HIGH)
  | .Rb v => decide (shr64 s.group1_ v &&& Mask.LOW = Mask.LOW)
  | .R16 v => decide (shr64 s.group1_ v &&& Mask.WORD = Mask.WORD)
  | .R32 v => decide (shr64 s.group1_ v &&& Mask.DOUBLE = Mask.DOUBLE)
  | .R64 v => decide (shr64 s.group1_ v &&& Mask.QUAD = Mask.QUAD)
  | .Xmm v => decide (shr64 s.group2_ v &&& Mask.XMM = Mask.XMM)
  | .Ymm v => decide (shr64 s.group2_ v &&& Mask.YMM = Mask.YMM)
  | .Mm v => decide (shr64 s.group2_ v &&& Mask.MM = Mask.MM)
  | .St v => decide (shr64 s.group2_ v &&& Mask.ST = Mask.ST)
  | .Sreg v => decide (shr64 s.group2_ v &&& Mask.SREG = Mask.SREG)
  | .FpuData v => decide (shr64 s.group2_ v &&& Mask.DATA = Mask.DATA)
  | .FpuInstruction v => decide (shr64 s.group2_ v &&& Mask.INSTR = Mask.INSTR)
  | .FpuOpcode v => decide (shr64 s.group2_ v &&& Mask.OPCODE = Mask.OPCODE)
  | .Rip v => decide (shr64 s.group2_ v &&& Mask.RIP = Mask.RIP)
  | .Eflags i => decide (shr64 s.group3_ i &&& Mask.EFLAG = Mask.EFLAG)
  | .FpuControl i => decide (shr64 s.group3_ i &&& Mask.CONTROL = Mask.CONTROL)
  | .FpuStatus i => decide (shr64 s.group3_ i &&& Mask.STATUS = Mask.STATUS)
  | .FpuTag i => decide (shr64 s.group4_ i &&& Mask.TAG = Mask.TAG)
  | .Mxcsr i => decide (shr64 s.group4_ i &&& Mask.MXCSR = Mask.MXCSR)

end RegSet

/-! ## The lane / template / shift table read off the overloads

Each overload of `operator+=` and of `contains` touches one lane, with one
`Mask` template and one shift count.  The three functions below record that
table; `addAssign_get_own`, `addAssign_get_other` and `contains_eq_table`
prove that it agrees with the case-by-case definitions above. -/

/-- The four lanes of a `RegSet`. -/
inductive Lane where
  | g1
  | g2
  | g3
  | g4
deriving DecidableEq, Repr

/-- Read one lane of a set. -/
def RegSet.get (s : RegSet) : Lane → Nat
  | .g1 => s.group1_
  | .g2 => s.group2_
  | .g3 => s.group3_
  | .g4 => s.group4_

/-- The lane written by `operator+=` and read by `contains` for an operand. -/
def Elem.lane : Elem → Lane
  | .Rl _ | .Rh _ | .Rb _ | .R16 _ | .R32 _ | .R64 _ => .g1
  | .Xmm _ | .Ymm _ | .Mm _ | .St _ | .Sreg _ => .g2
  | .FpuData _ | .FpuInstruction _ | .FpuOpcode _ | .Rip _ => .g2
  | .Eflags _ | .FpuControl _ | .FpuStatus _ => .g3
  | .FpuTag _ | .Mxcsr _ => .g4

/-- The `Mask` template used by `operator+=` and `contains` for an operand. -/
def Elem.mask : Elem → Nat
  | .Rl _ => Mask.LOW
  | .Rh _ => Mask.HIGH
  | .Rb _ => Mask.LOW
  | .R16 _ => Mask.WORD
  | .R32 _ => Mask.DOUBLE
  | .R64 _ => Mask.QUAD
  | .Xmm _ => Mask.XMM
  | .Ymm _ => Mask.YMM
  | .Mm _ => Mask.MM
  | .St _ => Mask.ST
  | .Sreg _ => Mask.SREG
  | .FpuData _ => Mask.DATA
  | .FpuInstruction _ => Mask.INSTR
  | .FpuOpcode _ => Mask.OPCODE
  | .Rip _ => Mask.RIP
  | .Eflags _ => Mask.EFLAG
  | .FpuControl _ => Mask.CONTROL
  | .FpuStatus _ => Mask.STATUS
  | .FpuTag _ => Mask.TAG
  | .Mxcsr _ => Mask.MXCSR

/-- The shift count used by `operator+=` and `contains` for an operand:
`val_` (or `index()`), and `val_ - 4` in `uint64_t` arithmetic for `Rh`. -/
def Elem.shift : Elem → Nat
  | .Rh v => sub64 v 4
  | .Rl v | .Rb v | .R16 v | .R32 v | .R64 v => v
  | .Xmm v | .Ymm v | .Mm v | .St v | .Sreg v => v
  | .FpuData v | .FpuInstruction v | .FpuOpcode v | .Rip v => v
  | .Eflags i | .FpuControl i | .FpuStatus i | .FpuTag i | .Mxcsr i => i

/-- Containment as the specification words it: shift the template left by
the index exactly as insertion does, AND it with the lane, and compare the
result with the shifted template. -/
def RegSet.containsSpec (s : RegSet) (e : Elem) : Bool :=
  decide (s.get e.lane &&& shl64 e.mask e.shift = shl64 e.mask e.shift)

/-! ## Sets built from the constants by insertion, union and intersection -/

/-- A finite construction of a set: start from `empty()` or `universe()`,
insert operands, take unions and intersections. -/
inductive Build where
  | empty
  | univ
  | ins (b : Build) (e : Elem)
  | union (a b : Build)
  | inter (a b : Build)
deriving Repr

/-- The set a construction produces, through the operators of `RegSet`. -/
def Build.run : Build → RegSet
  | .empty => RegSet.empty
  | .univ => RegSet.universe_
  | .ins b e => b.run.add e
  | .union a b => a.run.or b.run
  | .inter a b => a.run.and b.run

/-- Every operand the construction inserts has its index in the documented
range of its class. -/
def Build.inRange : Build → Bool
  | .empty => true
  | .univ => true
  | .ins b e => b.inRange && e.inRange
  | .union a b => a.inRange && b.inRange
  | .inter a b => a.inRange && b.inRange

/-- Every operand the construction inserts has its index in the documented
range of its class and is an operand that `universe()` contains. -/
def Build.inUniverse : Build → Bool
  | .empty => true
  | .univ => true
  | .ins b e => b.inUniverse && (e.inRange && RegSet.universe_.contains e)
  | .union a b => a.inUniverse && b.inUniverse
  | .inter a b => a.inUniverse && b.inUniverse

/-! ## Helper lemmas -/

theorem and_eq_right_iff_testBit (a m : Nat) :
    a &&& m = m ↔ ∀ j, m.testBit j = true → a.testBit j = true := by
  constructor
  · intro h j hj
    rw [← h, Nat.testBit_and] at hj
    simp only [Bool.and_eq_true] at hj
    exact hj.1
  · intro h
    apply Nat.eq_of_testBit_eq
    intro j
    rw [Nat.testBit_and]
    cases hm : m.testBit j
    · simp
    · simp [h j hm]

theorem shr_and_iff_and_shl (g m s : Nat) :
    (g >>> s) &&& m = m ↔ g &&& (m <<< s) = m <<< s := by
  rw [and_eq_right_iff_testBit, and_eq_right_iff_testBit]
  constructor
  · intro h j hj
    rw [Nat.testBit_shiftLeft] at hj
    simp only [ge_iff_le, Bool.and_eq_true, decide_eq_true_eq] at hj
    have hb := h (j - s) hj.2
    rw [Nat.testBit_shiftRight] at hb
    rwa [Nat.add_sub_cancel' hj.1] at hb
  · intro h j hj
    rw [Nat.testBit_shiftRight]
    apply h
    rw [Nat.testBit_shiftLeft]
    simp [hj]

theorem RegSet.ext_get {s t : RegSet} (h : ∀ l, s.get l = t.get l) : s = t := by
  cases s; cases t
  have h1 := h .g1
  have h2 := h .g2
  have h3 := h .g3
  have h4 := h .g4
  simp only [RegSet.get] at h1 h2 h3 h4
  simp [h1, h2, h3, h4]

theorem RegSet.eq_iff (s t : RegSet) : s.eq t = true ↔ s = t := by
  cases s; cases t
  simp [RegSet.eq, and_assoc]

theorem RegSet.addAssign_get_own (s : RegSet) (e : Elem) :
    (s.addAssign e).get e.lane = s.get e.lane ||| shl64 e.mask e.shift := by
  cases e <;> rfl

theorem RegSet.addAssign_get_other (s : RegSet) (e : Elem) (l : Lane) (h : l ≠ e.lane) :
    (s.addAssign e).get l = s.get l := by
  cases e <;> cases l <;> first | rfl | exact absurd rfl h

theorem RegSet.contains_eq_table (s : RegSet) (e : Elem) :
    s.contains e = decide (shr64 (s.get e.lane) e.shift &&& e.mask = e.mask) := by
  cases e <;> rfl

/-- In the documented range the shift count is below 64 and the shifted
template still fits in 64 bits. -/
theorem Elem.inRange_shift (e : Elem) (h : e.inRange = true) :
    e.shift < 64 ∧ e.mask <<< e.shift < 2 ^ 64 := by
  rcases e with v | v | v | v | v | v | v | v | v | v | v | v | v | v | v | v | v | v | v | v <;>
    simp only [Elem.inRange, Bool.and_eq_true, decide_eq_true_eq] at h
  all_goals first
    | (subst h; decide)
    | (obtain ⟨h4, h8⟩ := h; interval_cases v <;> decide)
    | (interval_cases v <;> decide)

theorem Elem.inRange_shl64 (e : Elem) (h : e.inRange = true) :
    shl64 e.mask e.shift = e.mask <<< e.shift :=
  Nat.mod_eq_of_lt (e.inRange_shift h).2

/-! ## Insertion followed by a query on the empty set -/

/-- C1 (insert-then-contains): for every operand class and every index in the
documented range of the class, the set `empty() + e` contains `e`. -/
theorem insert_then_contains (e : Elem) (h : e.inRange = true) :
    (RegSet.empty.add e).contains e = true := by
  rcases e with v | v | v | v | v | v | v | v | v | v | v | v | v | v | v | v | v | v | v | v <;>
    simp only [Elem.inRange, Bool.and_eq_true, decide_eq_true_eq] at h
  all_goals first
    | (subst h; decide)
    | (obtain ⟨h4, h8⟩ := h; interval_cases v <;> decide)
    | (interval_cases v <;> decide)

/-- Witness of C1 at the high-byte register with value 5. -/
theorem insert_then_contains_witness :
    (Elem.Rh 5).inRange = true ∧ (RegSet.empty.add (.Rh 5)).contains (.Rh 5) = true :=
  ⟨by decide, insert_then_contains (.Rh 5) (by decide)⟩

/-- C2 (aliasing property): for every index `i` in 0..15 the set
`empty() + R64(i)` contains `Rl(i)`, `Rb(i)`, `R16(i)`, `R32(i)` and `R64(i)`,
and for `i < 4` it also contains the high-byte register with value `i + 4`. -/
theorem quad_insert_contains_aliases (i : Nat) (h : i < 16) :
    (RegSet.empty.add (.R64 i)).contains (.Rl i) = true ∧
    (RegSet.empty.add (.R64 i)).contains (.Rb i) = true ∧
    (RegSet.empty.add (.R64 i)).contains (.R16 i) = true ∧
    (RegSet.empty.add (.R64 i)).contains (.R32 i) = true ∧
    (RegSet.empty.add (.R64 i)).contains (.R64 i) = true ∧
    (i < 4 → (RegSet.empty.add (.R64 i)).contains (.Rh (i + 4)) = true) := by
  interval_cases i <;> decide

/-- Witness of C2 at index 2, where the high-byte register (value 6) exists. -/
theorem quad_insert_contains_aliases_witness :
    (RegSet.empty.add (.R64 2)).contains (.Rl 2) = true ∧
    (RegSet.empty.add (.R64 2)).contains (.R16 2) = true ∧
    (RegSet.empty.add (.R64 2)).contains (.R32 2) = true ∧
    (RegSet.empty.add (.R64 2)).contains (.Rh 6) = true :=
  have t := quad_insert_contains_aliases 2 (by decide)
  ⟨t.1, t.2.2.1, t.2.2.2.1, t.2.2.2.2.2 (by decide)⟩

/-- C3 (vector aliasing is one-directional): for every index `i` in 0..15,
`empty() + Ymm(i)` contains `Xmm(i)`, and `empty() + Xmm(i)` does not contain
`Ymm(i)`. -/
theorem ymm_contains_xmm_not_conversely (i : Nat) (h : i < 16) :
    (RegSet.empty.add (.Ymm i)).contains (.Xmm i) = true ∧
    (RegSet.empty.add (.Xmm i)).contains (.Ymm i) = false := by
  interval_cases i <;> decide

/-- Witness of C3 at index 3, the scenario of the specification. -/
theorem ymm_contains_xmm_not_conversely_witness :
    (RegSet.empty.add (.Ymm 3)).contains (.Xmm 3) = true ∧
    (RegSet.empty.add (.Xmm 3)).contains (.Ymm 3) = false :=
  ymm_contains_xmm_not_conversely 3 (by decide)

/-- C4 (no collision between different general purpose indices): for indices
`i ≠ j` in 0..15 the set `empty() + R64(i)` contains none of `Rl(j)`, `Rb(j)`,
`R16(j)`, `R32(j)`, `R64(j)`; and `empty() + R64(0)` contains the 64-, 32-,
16- and low 8-bit registers at index 0 but not the low 8-bit register at
index 1. -/
theorem quad_insert_no_collision (i j : Nat) (hi : i < 16) (hj : j < 16) (hne : i ≠ j) :
    ((RegSet.empty.add (.R64 i)).contains (.Rl j) = false ∧
     (RegSet.empty.add (.R64 i)).contains (.Rb j) = false ∧
     (RegSet.empty.add (.R64 i)).contains (.R16 j) = false ∧
     (RegSet.empty.add (.R64 i)).contains (.R32 j) = false ∧
     (RegSet.empty.add (.R64 i)).contains (.R64 j) = false) ∧
    ((RegSet.empty.add (.R64 0)).contains (.R64 0) = true ∧
     (RegSet.empty.add (.R64 0)).contains (.R32 0) = true ∧
     (RegSet.empty.add (.R64 0)).contains (.R16 0) = true ∧
     (RegSet.empty.add (.R64 0)).contains (.Rl 0) = true ∧
     (RegSet.empty.add (.R64 0)).contains (.Rl 1) = false) := by
  refine ⟨?_, by decide⟩
  interval_cases i <;> interval_cases j <;> first | exact absurd rfl hne | decide

/-- Witness of C4 at the indices 5 and 13. -/
theorem quad_insert_no_collision_witness :
    (RegSet.empty.add (.R64 5)).contains (.Rl 13) = false ∧
    (RegSet.empty.add (.R64 5)).contains (.R64 13) = false :=
  have t := quad_insert_no_collision 5 13 (by decide) (by decide) (by decide)
  ⟨t.1.1, t.1.2.2.2.2⟩

/-! ## Containment as a subset test -/

theorem RegSet.and_singleton_eq_iff (A : RegSet) (e : Elem) :
    A.and (RegSet.empty.add e) = RegSet.empty.add e ↔
      A.get e.lane &&& shl64 e.mask e.shift = shl64 e.mask e.shift := by
  cases A
  cases e <;>
    simp [RegSet.and, RegSet.andAssign, RegSet.add, RegSet.addAssign, RegSet.empty,
      RegSet.get, Elem.lane, Elem.mask, Elem.shift, Mask.EMPTY]

theorem RegSet.contains_eq_containsSpec (A : RegSet) (e : Elem) (h : e.inRange = true) :
    A.contains e = A.containsSpec e := by
  rw [RegSet.contains_eq_table, RegSet.containsSpec, e.inRange_shl64 h, shr64]
  exact decide_eq_decide.mpr (shr_and_iff_and_shl _ _ _)

/-- C5 (containment is the subset test of the specification): for every set
`A` and every operand `e` with an index in its documented range, the value
`A.contains(e)` computed by the code (lane shifted right, compared with the
unshifted template) equals the test `lane & (template << index) ==
(template << index)`, and equals `A & (empty() + e) == empty() + e`. -/
theorem contains_is_subset_test (A : RegSet) (e : Elem) (h : e.inRange = true) :
    A.contains e = A.containsSpec e ∧
    A.contains e = (A.and (RegSet.empty.add e)).eq (RegSet.empty.add e) := by
  refine ⟨RegSet.contains_eq_containsSpec A e h, ?_⟩
  rw [RegSet.contains_eq_containsSpec A e h, RegSet.containsSpec, Bool.eq_iff_iff,
    RegSet.eq_iff, RegSet.and_singleton_eq_iff, decide_eq_true_eq]

/-- Witness of C5: the set `{lane 1 = 0x10001}` queried for `R16(0)`. -/
theorem contains_is_subset_test_witness :
    (RegSet.mk 0x10001 0 0 0).contains (.R16 0) =
      (RegSet.mk 0x10001 0 0 0).containsSpec (.R16 0) ∧
    (RegSet.mk 0x10001 0 0 0).contains (.R16 0) =
      ((RegSet.mk 0x10001 0 0 0).and (RegSet.empty.add (.R16 0))).eq
        (RegSet.empty.add (.R16 0)) :=
  contains_is_subset_test (RegSet.mk 0x10001 0 0 0) (.R16 0) (by decide)

/-! ## Frame and idempotence of insertion -/

/-- C6 (non-interference between lanes): for every set `A` and operand `e`,
`A + e` agrees with `A` on every lane other than the lane of `e`; inserting an
operand of a lane-2, lane-3 or lane-4 class leaves `group1_` unchanged, and
inserting a general purpose operand (`Rl`, `Rh`, `Rb`, `R16`, `R32`, `R64`)
leaves `group2_`, `group3_` and `group4_` unchanged. -/
theorem insert_changes_only_own_lane (A : RegSet) (e : Elem) :
    (∀ l : Lane, l ≠ e.lane → (A.add e).get l = A.get l) ∧
    (∀ v : Nat, ∀ x ∈ [Elem.Xmm v, .Ymm v, .Mm v, .St v, .Sreg v, .FpuData v,
        .FpuInstruction v, .FpuOpcode v, .Rip v, .Eflags v, .FpuControl v, .FpuStatus v,
        .FpuTag v, .Mxcsr v], (A.add x).group1_ = A.group1_) ∧
    (∀ v : Nat, ∀ x ∈ [Elem.Rl v, .Rh v, .Rb v, .R16 v, .R32 v, .R64 v],
        (A.add x).group2_ = A.group2_ ∧ (A.add x).group3_ = A.group3_ ∧
        (A.add x).group4_ = A.group4_) := by
  refine ⟨fun l hl => RegSet.addAssign_get_other A e l hl, ?_, ?_⟩
  · intro v x hx
    simp only [List.mem_cons, List.mem_singleton, List.not_mem_nil, or_false] at hx
    rcases hx with h | h | h | h | h | h | h | h | h | h | h | h | h | h <;> subst h <;> rfl
  · intro v x hx
    simp only [List.mem_cons, List.mem_singleton, List.not_mem_nil, or_false] at hx
    rcases hx with h | h | h | h | h | h <;> subst h <;> exact ⟨rfl, rfl, rfl⟩

/-- Witness of C6: inserting `Xmm(3)` into the universe leaves lanes 1, 3, 4. -/
theorem insert_changes_only_own_lane_witness :
    (RegSet.universe_.add (.Xmm 3)).get .g1 = RegSet.universe_.get .g1 ∧
    (RegSet.universe_.add (.Xmm 3)).group1_ = RegSet.universe_.group1_ :=
  have t := insert_changes_only_own_lane RegSet.universe_ (.Xmm 3)
  ⟨t.1 .g1 (by decide), t.2.1 3 (.Xmm 3) (by simp)⟩

/-- C7 (insertion is idempotent): for every set `A` and operand `e`,
`(A + e) + e == A + e`. -/
theorem insert_idempotent (A : RegSet) (e : Elem) :
    ((A.add e).add e).eq (A.add e) = true := by
  rw [RegSet.eq_iff]
  cases e <;> simp [RegSet.add, RegSet.addAssign, Nat.or_assoc]

/-! ## The universe literals -/

theorem testBit_lt_of_lt_two_pow {x n k : Nat} (hx : x < 2 ^ n) (hk : x.testBit k = true) :
    k < n := by
  by_contra hn
  have hle : 2 ^ n ≤ 2 ^ k := Nat.pow_le_pow_right (by decide) (Nat.le_of_not_lt hn)
  rw [Nat.testBit_lt_two_pow (Nat.lt_of_lt_of_le hx hle)] at hk
  exact Bool.false_ne_true hk

theorem testBit_of_and_eq {a u k : Nat} (h : a &&& u = a) (hk : a.testBit k = true) :
    u.testBit k = true := by
  rw [← h, Nat.testBit_and] at hk
  simp only [Bool.and_eq_true] at hk
  exact hk.2

/-- What one in-range insertion into `empty()` can set, lane by lane: only
bits of `UNIV1` in lane 1, only bits of `UNIV2` in lane 2, any of the 64 bits
in lane 3 and only the low 32 bits in lane 4. -/
theorem Elem.inRange_singleton_bounds (e : Elem) (h : e.inRange = true) :
    (RegSet.empty.add e).group1_ &&& Mask.UNIV1 = (RegSet.empty.add e).group1_ ∧
    (RegSet.empty.add e).group2_ &&& Mask.UNIV2 = (RegSet.empty.add e).group2_ ∧
    (RegSet.empty.add e).group3_ < 2 ^ 64 ∧
    (RegSet.empty.add e).group4_ < 2 ^ 32 := by
  rcases e with v | v | v | v | v | v | v | v | v | v | v | v | v | v | v | v | v | v | v | v <;>
    simp only [Elem.inRange, Bool.and_eq_true, decide_eq_true_eq] at h
  all_goals first
    | (subst h; decide)
    | (obtain ⟨h4, h8⟩ := h; interval_cases v <;> decide)
    | (interval_cases v <;> decide)

/-- C8 (amended: the universe literals against the insertable bits): in
lanes 1 and 2 a bit is set in `universe()` if and only if inserting some
in-range operand into `empty()` sets it; in lanes 3 and 4 every bit set in
`universe()` is set by such an insertion, but not conversely: the insertable
positions are all 64 bits of lane 3 and the bits 0..31 of lane 4, and the
insertable positions that `universe()` leaves out are exactly the bits of
`0x1800e5c0ffc0902a` in lane 3 (bit 1 among them) and of `0x20005555` in
lane 4 (bit 0 among them). -/
theorem universe_bits_insertable :
    (∀ k, RegSet.universe_.group1_.testBit k = true ↔
      ∃ e : Elem, e.inRange = true ∧ (RegSet.empty.add e).group1_.testBit k = true) ∧
    (∀ k, RegSet.universe_.group2_.testBit k = true ↔
      ∃ e : Elem, e.inRange = true ∧ (RegSet.empty.add e).group2_.testBit k = true) ∧
    (∀ k, RegSet.universe_.group3_.testBit k = true →
      ∃ e : Elem, e.inRange = true ∧ (RegSet.empty.add e).group3_.testBit k = true) ∧
    (∀ k, RegSet.universe_.group4_.testBit k = true →
      ∃ e : Elem, e.inRange = true ∧ (RegSet.empty.add e).group4_.testBit k = true) ∧
    (∀ k, (∃ e : Elem, e.inRange = true ∧ (RegSet.empty.add e).group3_.testBit k = true) ↔
      k < 64) ∧
    (∀ k, (∃ e : Elem, e.inRange = true ∧ (RegSet.empty.add e).group4_.testBit k = true) ↔
      k < 32) ∧
    (∀ k, ((∃ e : Elem, e.inRange = true ∧ (RegSet.empty.add e).group3_.testBit k = true) ∧
        RegSet.universe_.group3_.testBit k = false) ↔
      Nat.testBit 0x1800e5c0ffc0902a k = true) ∧
    (∀ k, ((∃ e : Elem, e.inRange = true ∧ (RegSet.empty.add e).group4_.testBit k = true) ∧
        RegSet.universe_.group4_.testBit k = false) ↔
      Nat.testBit 0x20005555 k = true) ∧
    ((∃ e : Elem, e.inRange = true ∧ (RegSet.empty.add e).group3_.testBit 1 = true) ∧
      RegSet.universe_.group3_.testBit 1 = false) ∧
    ((∃ e : Elem, e.inRange = true ∧ (RegSet.empty.add e).group4_.testBit 0 = true) ∧
      RegSet.universe_.group4_.testBit 0 = false) := by
  have w1 : ∀ k, k < 64 →
      ∃ e : Elem, e.inRange = true ∧ (RegSet.empty.add e).group1_.testBit k = true := by
    intro k hk
    refine ⟨if k < 16 then .Rl k else if k < 32 then .R16 (k - 16)
      else if k < 48 then .R32 (k - 32) else .R64 (k - 48), ?_⟩
    interval_cases k <;> decide
  have w3 : ∀ k, k < 64 →
      ∃ e : Elem, e.inRange = true ∧ (RegSet.empty.add e).group3_.testBit k = true := by
    intro k hk
    refine ⟨if k < 32 then .Eflags k else if k < 48 then .FpuControl (k - 32)
      else .FpuStatus (k - 48), ?_⟩
    interval_cases k <;> decide
  have w4 : ∀ k, k < 32 →
      ∃ e : Elem, e.inRange = true ∧ (RegSet.empty.add e).group4_.testBit k = true := by
    intro k hk
    refine ⟨if k < 16 then .FpuTag k else .Mxcsr (k - 16), ?_⟩
    interval_cases k <;> decide
  have u1 : Mask.UNIV1 < 2 ^ 64 := by decide
  have u2 : Mask.UNIV2 < 2 ^ 64 := by decide
  have u3 : Mask.UNIV3 < 2 ^ 64 := by decide
  have u4 : Mask.UNIV4 < 2 ^ 32 := by decide
  refine ⟨fun k => ⟨fun hk => w1 k (testBit_lt_of_lt_two_pow u1 hk), ?_⟩,
    fun k => ⟨fun hk => ?_, ?_⟩, fun k hk => w3 k (testBit_lt_of_lt_two_pow u3 hk),
    fun k hk => w4 k (testBit_lt_of_lt_two_pow u4 hk), fun k => ⟨?_, w3 k⟩,
    fun k => ⟨?_, w4 k⟩, fun k => ⟨?_, fun hk => ?_⟩, fun k => ⟨?_, fun hk => ?_⟩,
    ⟨⟨.Eflags 1, by decide, by decide⟩, by decide⟩,
    ⟨⟨.FpuTag 0, by decide, by decide⟩, by decide⟩⟩
  · rintro ⟨e, he, hb⟩
    exact testBit_of_and_eq (e.inRange_singleton_bounds he).1 hb
  · have hk64 : k < 64 := testBit_lt_of_lt_two_pow u2 hk
    refine ⟨if k < 16 then .Xmm k else if k < 32 then .Ymm (k - 16)
      else if k < 40 then .Mm (k - 32) else if k < 48 then .St (k - 40)
      else if k < 54 then .Sreg (k - 48) else if k = 56 then .FpuData 0
      else if k = 57 then .FpuInstruction 0 else if k = 58 then .FpuOpcode 0 else .Rip 0, ?_⟩
    interval_cases k <;> first | decide | exact absurd hk (by decide)
  · rintro ⟨e, he, hb⟩
    exact testBit_of_and_eq (e.inRange_singleton_bounds he).2.1 hb
  · rintro ⟨e, he, hb⟩
    exact testBit_lt_of_lt_two_pow (e.inRange_singleton_bounds he).2.2.1 hb
  · rintro ⟨e, he, hb⟩
    exact testBit_lt_of_lt_two_pow (e.inRange_singleton_bounds he).2.2.2 hb
  · rintro ⟨⟨e, he, hb⟩, hu⟩
    have hk : k < 64 := testBit_lt_of_lt_two_pow (e.inRange_singleton_bounds he).2.2.1 hb
    clear hb
    interval_cases k <;> first | decide | exact absurd hu (by decide)
  · have hk64 : k < 64 :=
      testBit_lt_of_lt_two_pow (by decide : 0x1800e5c0ffc0902a < 2 ^ 64) hk
    refine ⟨w3 k hk64, ?_⟩
    interval_cases k <;> first | decide | exact absurd hk (by decide)
  · rintro ⟨⟨e, he, hb⟩, hu⟩
    have hk : k < 32 := testBit_lt_of_lt_two_pow (e.inRange_singleton_bounds he).2.2.2 hb
    clear hb
    interval_cases k <;> first | decide | exact absurd hu (by decide)
  · have hk32 : k < 32 := testBit_lt_of_lt_two_pow (by decide : 0x20005555 < 2 ^ 32) hk
    refine ⟨w4 k hk32, ?_⟩
    interval_cases k <;> first | decide | exact absurd hk (by decide)

/-- Witness of C8: bit 0 of lane 3 is a universe bit, hence insertable. -/
theorem universe_bits_insertable_witness :
    ∃ e : Elem, e.inRange = true ∧ (RegSet.empty.add e).group3_.testBit 0 = true :=
  universe_bits_insertable.2.2.1 0 (by decide)

/-- Counterexample to C8 as stated: bit 1 of lane 3 is set by inserting the
in-range operand `Eflags` index 1 into `empty()`, yet it is not set in
`universe()`. -/
theorem universe_misses_insertable_bit :
    ¬ (RegSet.universe_.group3_.testBit 1 = true ↔
      ∃ e : Elem, e.inRange = true ∧ (RegSet.empty.add e).group3_.testBit 1 = true) := by
  intro h
  have hu : RegSet.universe_.group3_.testBit 1 = true :=
    h.mpr ⟨.Eflags 1, by decide, by decide⟩
  exact absurd hu (by decide)

/-! ## Staying inside the universe -/

theorem or_and_eq_of_and_eq {a b u : Nat} (ha : a &&& u = a) (hb : b &&& u = b) :
    (a ||| b) &&& u = a ||| b := by
  rw [Nat.and_comm, Nat.and_or_distrib_left, Nat.and_comm u a, Nat.and_comm u b, ha, hb]

theorem and_and_eq_of_and_eq {a u : Nat} (b : Nat) (ha : a &&& u = a) :
    (a &&& b) &&& u = a &&& b := by
  rw [Nat.and_assoc, Nat.and_comm b u, ← Nat.and_assoc, ha]

theorem RegSet.and_get (s t : RegSet) (l : Lane) : (s.and t).get l = s.get l &&& t.get l := by
  cases l <;> rfl

theorem RegSet.or_get (s t : RegSet) (l : Lane) : (s.or t).get l = s.get l ||| t.get l := by
  cases l <;> rfl

theorem RegSet.and_universe_of_get {s : RegSet}
    (h : ∀ l, s.get l &&& RegSet.universe_.get l = s.get l) : s.and RegSet.universe_ = s :=
  RegSet.ext_get fun l => by rw [RegSet.and_get, h l]

theorem RegSet.get_of_and_universe {s : RegSet} (h : s.and RegSet.universe_ = s) (l : Lane) :
    s.get l &&& RegSet.universe_.get l = s.get l := by
  rw [← RegSet.and_get, h]

theorem RegSet.add_within_universe {s : RegSet} (hs : s.and RegSet.universe_ = s) (e : Elem)
    (he : e.inRange = true) (hu : RegSet.universe_.contains e = true) :
    (s.add e).and RegSet.universe_ = s.add e := by
  apply RegSet.and_universe_of_get
  intro l
  by_cases hl : l = e.lane
  · subst hl
    rw [RegSet.contains_eq_containsSpec _ e he, RegSet.containsSpec, decide_eq_true_eq,
      Nat.and_comm] at hu
    rw [RegSet.add, RegSet.addAssign_get_own]
    exact or_and_eq_of_and_eq (RegSet.get_of_and_universe hs _) hu
  · rw [RegSet.add, RegSet.addAssign_get_other s e l hl]
    exact RegSet.get_of_and_universe hs l

theorem Build.run_within_universe (b : Build) (h : b.inUniverse = true) :
    b.run.and RegSet.universe_ = b.run := by
  induction b with
  | empty => decide
  | univ => decide
  | ins b e ih =>
    simp only [Build.inUniverse, Bool.and_eq_true] at h
    exact RegSet.add_within_universe (ih h.1) e h.2.1 h.2.2
  | union a b iha ihb =>
    simp only [Build.inUniverse, Bool.and_eq_true] at h
    apply RegSet.and_universe_of_get
    intro l
    rw [Build.run, RegSet.or_get]
    exact or_and_eq_of_and_eq (RegSet.get_of_and_universe (iha h.1) l)
      (RegSet.get_of_and_universe (ihb h.2) l)
  | inter a b iha ihb =>
    simp only [Build.inUniverse, Bool.and_eq_true] at h
    apply RegSet.and_universe_of_get
    intro l
    rw [Build.run, RegSet.and_get]
    exact and_and_eq_of_and_eq _ (RegSet.get_of_and_universe (iha h.1) l)

theorem Elem.universe_contains_of_lane12 (e : Elem) (h : e.inRange = true)
    (hl : e.lane = .g1 ∨ e.lane = .g2) : RegSet.universe_.contains e = true := by
  rcases e with v | v | v | v | v | v | v | v | v | v | v | v | v | v | v | v | v | v | v | v <;>
    simp only [Elem.inRange, Bool.and_eq_true, decide_eq_true_eq] at h
  all_goals first
    | (simp [Elem.lane] at hl; done)
    | (subst h; decide)
    | (obtain ⟨h4, h8⟩ := h; interval_cases v <;> decide)
    | (interval_cases v <;> decide)

/-- C9 (amended well-formedness invariant): every set obtained from `empty()`
or `universe()` by a finite sequence of unions, intersections and insertions
of in-range operands that `universe()` itself contains satisfies
`S & universe() == S`; every in-range operand of a lane-1 or lane-2 class is
such an operand. -/
theorem built_within_universe (b : Build) (h : b.inUniverse = true) :
    (b.run.and RegSet.universe_).eq b.run = true ∧
    (∀ e : Elem, e.inRange = true → e.lane = .g1 ∨ e.lane = .g2 →
      RegSet.universe_.contains e = true) :=
  ⟨(RegSet.eq_iff _ _).mpr (Build.run_within_universe b h),
    fun e he hl => Elem.universe_contains_of_lane12 e he hl⟩

/-- Witness of C9: `(empty() + R64(3) + Eflags(0)) | (universe() & (empty() + Ymm(9)))`. -/
theorem built_within_universe_witness :
    ((Build.union (.ins (.ins .empty (.R64 3)) (.Eflags 0))
        (.inter .univ (.ins .empty (.Ymm 9)))).run.and RegSet.universe_).eq
      (Build.union (.ins (.ins .empty (.R64 3)) (.Eflags 0))
        (.inter .univ (.ins .empty (.Ymm 9)))).run = true :=
  (built_within_universe (Build.union (.ins (.ins .empty (.R64 3)) (.Eflags 0))
    (.inter .univ (.ins .empty (.Ymm 9)))) (by decide)).1

/-- Counterexample to C9 as stated: `empty() + Eflags(1)` is built by one
insertion of an in-range operand, and it has a bit outside `universe()`. -/
theorem built_set_leaves_universe :
    (Build.ins .empty (.Eflags 1)).inRange = true ∧
    ((Build.ins .empty (.Eflags 1)).run.and RegSet.universe_).eq
      (Build.ins .empty (.Eflags 1)).run = false := by
  decide

/-! ## Intersection with the universe -/

theorem and_eq_self_iff_and_compl_eq_zero {a u n : Nat} (ha : a < 2 ^ 64)
    (hor : u ||| n = 2 ^ 64 - 1) (hand : u &&& n = 0) : a &&& u = a ↔ a &&& n = 0 := by
  constructor
  · intro h
    rw [← h, Nat.and_assoc, hand, Nat.and_zero]
  · intro h
    have hm : a &&& (u ||| n) = a := by
      rw [hor, Nat.and_pow_two_sub_one_eq_mod, Nat.mod_eq_of_lt ha]
    rw [Nat.and_or_distrib_left, h, Nat.or_zero] at hm
    exact hm

/-- C10 (amended: when `universe()` is neutral for intersection): for every
set `A` of four 64-bit lanes, `A & universe() == A` holds if and only if `A`
has no bit outside the universe literals, that is `A - universe() == empty()`;
lane 1 of `A & universe()` always equals lane 1 of `A`. -/
theorem and_universe_eq_iff (A : RegSet) (h : A.IsU64) :
    ((A.and RegSet.universe_).eq A = true ↔ (A.sub RegSet.universe_).eq RegSet.empty = true) ∧
    (A.and RegSet.universe_).group1_ = A.group1_ := by
  obtain ⟨g1, g2, g3, g4⟩ := A
  obtain ⟨h1, h2, h3, h4⟩ := h
  simp only at h1 h2 h3 h4
  have e1 := and_eq_self_iff_and_compl_eq_zero (u := Mask.UNIV1) (n := not64 Mask.UNIV1) h1
    (by decide) (by decide)
  have e2 := and_eq_self_iff_and_compl_eq_zero (u := Mask.UNIV2) (n := not64 Mask.UNIV2) h2
    (by decide) (by decide)
  have e3 := and_eq_self_iff_and_compl_eq_zero (u := Mask.UNIV3) (n := not64 Mask.UNIV3) h3
    (by decide) (by decide)
  have e4 := and_eq_self_iff_and_compl_eq_zero (u := Mask.UNIV4) (n := not64 Mask.UNIV4) h4
    (by decide) (by decide)
  have z1 : g1 &&& not64 Mask.UNIV1 = 0 := by
    have : not64 Mask.UNIV1 = 0 := by decide
    rw [this, Nat.and_zero]
  refine ⟨?_, e1.mpr z1⟩
  rw [RegSet.eq_iff, RegSet.eq_iff]
  simp only [RegSet.and, RegSet.andAssign, RegSet.sub, RegSet.subAssign, RegSet.universe_,
    RegSet.empty, Mask.EMPTY, RegSet.mk.injEq]
  rw [e1, e2, e3, e4]

/-- Witness of C10 on the universe itself. -/
theorem and_universe_eq_iff_witness :
    ((RegSet.universe_.and RegSet.universe_).eq RegSet.universe_ = true ↔
      (RegSet.universe_.sub RegSet.universe_).eq RegSet.empty = true) ∧
    (RegSet.universe_.and RegSet.universe_).group1_ = RegSet.universe_.group1_ :=
  and_universe_eq_iff RegSet.universe_ (by decide)

/-- Counterexample to C10 as stated: the four-lane value `~empty()` (all bits
set in every lane) is changed by intersection with `universe()`. -/
theorem and_universe_changes_full_set :
    RegSet.empty.compl.IsU64 ∧
    (RegSet.empty.compl.and RegSet.universe_).eq RegSet.empty.compl = false := by
  decide

/-! ## Complement, difference and the lattice laws -/

theorem not64_testBit (x k : Nat) :
    (not64 x).testBit k = (decide (k < 64) && !x.testBit k) := by
  rw [not64, Nat.testBit_xor, Nat.testBit_two_pow_sub_one, Nat.testBit_mod_two_pow]
  cases decide (k < 64) <;> cases x.testBit k <;> rfl

theorem testBit_eq_false_of_ge {x k : Nat} (hx : x < 2 ^ 64) (hk : 64 ≤ k) :
    x.testBit k = false :=
  Nat.testBit_lt_two_pow (Nat.lt_of_lt_of_le hx (Nat.pow_le_pow_right (by decide) hk))

theorem or_not64 {x : Nat} (hx : x < 2 ^ 64) : x ||| not64 x = 2 ^ 64 - 1 := by
  apply Nat.eq_of_testBit_eq
  intro k
  rw [Nat.testBit_or, not64_testBit, Nat.testBit_two_pow_sub_one]
  by_cases hk : k < 64
  · simp [hk]
  · simp [hk, testBit_eq_false_of_ge hx (Nat.le_of_not_lt hk)]

theorem and_not64 (x : Nat) : x &&& not64 x = 0 := by
  apply Nat.eq_of_testBit_eq
  intro k
  rw [Nat.testBit_and, not64_testBit, Nat.zero_testBit]
  cases x.testBit k <;> simp

theorem and_or_and_not64 {a : Nat} (b : Nat) (ha : a < 2 ^ 64) :
    (a &&& b) ||| (a &&& not64 b) = a := by
  apply Nat.eq_of_testBit_eq
  intro k
  rw [Nat.testBit_or, Nat.testBit_and, Nat.testBit_and, not64_testBit]
  by_cases hk : k < 64
  · cases a.testBit k <;> cases b.testBit k <;> simp [hk]
  · simp [testBit_eq_false_of_ge ha (Nat.le_of_not_lt hk)]

theorem and_and_and_not64 (a b : Nat) : (a &&& b) &&& (a &&& not64 b) = 0 := by
  apply Nat.eq_of_testBit_eq
  intro k
  rw [Nat.testBit_and, Nat.testBit_and, Nat.testBit_and, not64_testBit, Nat.zero_testBit]
  cases a.testBit k <;> cases b.testBit k <;> simp

/-- C11 (complement law): for every set `A` of four 64-bit lanes, `A | ~A`
has all 64 bits set in each of the four lanes (the bitwise NOT is not masked
with `universe()`), and `A & ~A == empty()`. -/
theorem complement_law (A : RegSet) (h : A.IsU64) :
    (A.or A.compl).eq
      ⟨0xffffffffffffffff, 0xffffffffffffffff, 0xffffffffffffffff, 0xffffffffffffffff⟩ = true ∧
    (A.and A.compl).eq RegSet.empty = true := by
  obtain ⟨g1, g2, g3, g4⟩ := A
  obtain ⟨h1, h2, h3, h4⟩ := h
  simp only at h1 h2 h3 h4
  rw [RegSet.eq_iff, RegSet.eq_iff]
  simp only [RegSet.or, RegSet.orAssign, RegSet.and, RegSet.andAssign, RegSet.compl,
    RegSet.empty, Mask.EMPTY, RegSet.mk.injEq, and_not64, or_not64 h1, or_not64 h2,
    or_not64 h3, or_not64 h4]
  decide

/-- Witness of C11 on the set `empty() + R32(2) + Xmm(7)`. -/
theorem complement_law_witness :
    ((((RegSet.empty.add (.R32 2)).add (.Xmm 7)).or
        ((RegSet.empty.add (.R32 2)).add (.Xmm 7)).compl).eq
      ⟨0xffffffffffffffff, 0xffffffffffffffff, 0xffffffffffffffff, 0xffffffffffffffff⟩ = true) ∧
    ((((RegSet.empty.add (.R32 2)).add (.Xmm 7)).and
        ((RegSet.empty.add (.R32 2)).add (.Xmm 7)).compl).eq RegSet.empty = true) :=
  complement_law ((RegSet.empty.add (.R32 2)).add (.Xmm 7)) (by decide)

/-- C12 (`~empty() != universe()`): the two values agree in lane 1 and differ
in each of the lanes 2, 3 and 4, whose universe literals are not all-ones. -/
theorem compl_empty_ne_universe :
    RegSet.empty.compl.ne RegSet.universe_ = true ∧
    RegSet.empty.compl.group1_ = RegSet.universe_.group1_ ∧
    RegSet.empty.compl.group2_ ≠ RegSet.universe_.group2_ ∧
    RegSet.empty.compl.group3_ ≠ RegSet.universe_.group3_ ∧
    RegSet.empty.compl.group4_ ≠ RegSet.universe_.group4_ := by
  decide

/-- C13 (difference is AND-NOT and partitions a set): for all sets `A` and
`B`, `A - B == A & ~B`, `(A & B) | (A - B) == A` and
`(A & B) & (A - B) == empty()`. -/
theorem difference_partitions (A B : RegSet) (h : A.IsU64) :
    (A.sub B).eq (A.and B.compl) = true ∧
    ((A.and B).or (A.sub B)).eq A = true ∧
    ((A.and B).and (A.sub B)).eq RegSet.empty = true := by
  obtain ⟨a1, a2, a3, a4⟩ := A
  obtain ⟨b1, b2, b3, b4⟩ := B
  obtain ⟨h1, h2, h3, h4⟩ := h
  simp only at h1 h2 h3 h4
  rw [RegSet.eq_iff, RegSet.eq_iff, RegSet.eq_iff]
  refine ⟨rfl, ?_, ?_⟩
  · simp only [RegSet.or, RegSet.orAssign, RegSet.and, RegSet.andAssign, RegSet.sub,
      RegSet.subAssign, and_or_and_not64 _ h1, and_or_and_not64 _ h2, and_or_and_not64 _ h3,
      and_or_and_not64 _ h4]
  · simp only [RegSet.and, RegSet.andAssign, RegSet.sub, RegSet.subAssign, RegSet.empty,
      Mask.EMPTY, and_and_and_not64]

/-- Witness of C13 on `A = universe()` and `B = empty() + Ymm(1)`. -/
theorem difference_partitions_witness :
    (RegSet.universe_.sub (RegSet.empty.add (.Ymm 1))).eq
      (RegSet.universe_.and (RegSet.empty.add (.Ymm 1)).compl) = true ∧
    ((RegSet.universe_.and (RegSet.empty.add (.Ymm 1))).or
      (RegSet.universe_.sub (RegSet.empty.add (.Ymm 1)))).eq RegSet.universe_ = true ∧
    ((RegSet.universe_.and (RegSet.empty.add (.Ymm 1))).and
      (RegSet.universe_.sub (RegSet.empty.add (.Ymm 1)))).eq RegSet.empty = true :=
  difference_partitions RegSet.universe_ (RegSet.empty.add (.Ymm 1)) (by decide)

/-- C14 (lattice laws with `empty()`): union and intersection are
associative, `empty()` is neutral for union and absorbing for intersection,
`A - A == empty()`; in particular `universe() - universe() == empty()` and
`empty() | universe() == universe()`. -/
theorem lattice_laws (A B C : RegSet) :
    (A.or (B.or C)).eq ((A.or B).or C) = true ∧
    (A.and (B.and C)).eq ((A.and B).and C) = true ∧
    (A.or RegSet.empty).eq A = true ∧
    (A.and RegSet.empty).eq RegSet.empty = true ∧
    (A.sub A).eq RegSet.empty = true ∧
    (RegSet.universe_.sub RegSet.universe_).eq RegSet.empty = true ∧
    (RegSet.empty.or RegSet.universe_).eq RegSet.universe_ = true := by
  refine ⟨?_, ?_, ?_, ?_, ?_, by decide, by decide⟩
  · rw [RegSet.eq_iff]
    simp only [RegSet.or, RegSet.orAssign, Nat.or_assoc]
  · rw [RegSet.eq_iff]
    simp only [RegSet.and, RegSet.andAssign, Nat.and_assoc]
  · rw [RegSet.eq_iff]
    simp only [RegSet.or, RegSet.orAssign, RegSet.empty, Mask.EMPTY, Nat.or_zero]
  · rw [RegSet.eq_iff]
    simp only [RegSet.and, RegSet.andAssign, RegSet.empty, Mask.EMPTY, Nat.and_zero]
  · rw [RegSet.eq_iff]
    simp only [RegSet.sub, RegSet.subAssign, RegSet.empty, Mask.EMPTY, and_not64]

/-! ## Containment in an arbitrary set -/

theorem and_or_eq_iff (x m n : Nat) :
    x &&& (m ||| n) = m ||| n ↔ x &&& m = m ∧ x &&& n = n := by
  simp only [and_eq_right_iff_testBit, Nat.testBit_or, Bool.or_eq_true]
  constructor
  · intro h
    exact ⟨fun j hj => h j (Or.inl hj), fun j hj => h j (Or.inr hj)⟩
  · rintro ⟨hm, hn⟩ j (hj | hj)
    · exact hm j hj
    · exact hn j hj

theorem shr_and_and_iff (a b m s : Nat) :
    ((a &&& b) >>> s) &&& m = m ↔ (a >>> s) &&& m = m ∧ (b >>> s) &&& m = m := by
  simp only [and_eq_right_iff_testBit, Nat.testBit_shiftRight, Nat.testBit_and,
    Bool.and_eq_true]
  constructor
  · intro h
    exact ⟨fun j hj => (h j hj).1, fun j hj => (h j hj).2⟩
  · rintro ⟨ha, hb⟩ j hj
    exact ⟨ha j hj, hb j hj⟩

/-- C15 (a word register is its low byte plus its high byte): for every set
`A` and every index `i` in 0..3, `A.contains(R16(i))` is true if and only if
`A.contains(Rl(i))` and `A.contains(Rh)` with value `i + 4` are both true;
hence `empty() + Rl(i) + Rh(i+4)` contains `R16(i)`. -/
theorem word_is_low_and_high (A : RegSet) (i : Nat) (h : i < 4) :
    A.contains (.R16 i) = (A.contains (.Rl i) && A.contains (.Rh (i + 4))) ∧
    ((RegSet.empty.add (.Rl i)).add (.Rh (i + 4))).contains (.R16 i) = true := by
  have hs : sub64 (i + 4) 4 = i := by interval_cases i <;> decide
  have hw : Mask.WORD = Mask.LOW ||| Mask.HIGH := by decide
  refine ⟨?_, by interval_cases i <;> decide⟩
  simp only [RegSet.contains, hs]
  rw [← Bool.decide_and, decide_eq_decide, hw]
  exact and_or_eq_iff _ _ _

/-- Witness of C15: the set with lane 1 equal to `0x20002` (the bits of `Rl(1)`
and of `Rh` with value 5) queried for `R16(1)`. -/
theorem word_is_low_and_high_witness :
    (RegSet.mk 0x20002 0 0 0).contains (.R16 1) =
      ((RegSet.mk 0x20002 0 0 0).contains (.Rl 1) &&
        (RegSet.mk 0x20002 0 0 0).contains (.Rh 5)) ∧
    ((RegSet.empty.add (.Rl 1)).add (.Rh 5)).contains (.R16 1) = true :=
  word_is_low_and_high (RegSet.mk 0x20002 0 0 0) 1 (by decide)

/-- C16 (containment is downward closed along the alias chain in any set):
for every set `A` and every index `i` (in particular 0..15),
`A.contains(R64(i))` implies `A.contains(R32(i))`, which implies
`A.contains(R16(i))`, which implies `A.contains(Rl(i))` and
`A.contains(Rb(i))`; and `A.contains(Ymm(i))` implies `A.contains(Xmm(i))`. -/
theorem contains_downward_closed (A : RegSet) (i : Nat) :
    (A.contains (.R64 i) = true → A.contains (.R32 i) = true) ∧
    (A.contains (.R32 i) = true → A.contains (.R16 i) = true) ∧
    (A.contains (.R16 i) = true → A.contains (.Rl i) = true) ∧
    (A.contains (.R16 i) = true → A.contains (.Rb i) = true) ∧
    (A.contains (.Ymm i) = true → A.contains (.Xmm i) = true) := by
  have hq : Mask.QUAD = Mask.DOUBLE ||| 0x0001000000000000 := by decide
  have hd : Mask.DOUBLE = Mask.WORD ||| 0x0000000100000000 := by decide
  have hw : Mask.WORD = Mask.LOW ||| Mask.HIGH := by decide
  have hy : Mask.YMM = Mask.XMM ||| 0x0000000000010000 := by decide
  simp only [RegSet.contains, decide_eq_true_eq]
  refine ⟨fun h => ?_, fun h => ?_, fun h => ?_, fun h => ?_, fun h => ?_⟩
  · rw [hq] at h
    exact ((and_or_eq_iff _ _ _).mp h).1
  · rw [hd] at h
    exact ((and_or_eq_iff _ _ _).mp h).1
  · rw [hw] at h
    exact ((and_or_eq_iff _ _ _).mp h).1
  · rw [hw] at h
    exact ((and_or_eq_iff _ _ _).mp h).1
  · rw [hy] at h
    exact ((and_or_eq_iff _ _ _).mp h).1

/-- Witness of C16: `universe()` contains `R64(9)`, hence `R32(9)`. -/
theorem contains_downward_closed_witness :
    RegSet.universe_.contains (.R32 9) = true :=
  (contains_downward_closed RegSet.universe_ 9).1 (by decide)

/-! ## Shift counts -/

theorem RegSet.empty_get (l : Lane) : RegSet.empty.get l = 0 := by
  cases l <;> rfl

/-- C18 (shifts are in range and lose no bits): for every operand `e` with an
index in the documented range of its class, the shift count that insertion
and containment use for `e` is below 64, the template shifted left by it
keeps all of its bits (`((mask << s) >> s) == mask` in 64-bit arithmetic, the
inserted value being the untruncated `mask << s`), and for `Rh` with a value
in 4..7 the count `val_ - 4` does not wrap around and lies in 0..3. -/
theorem shifts_in_range (e : Elem) (h : e.inRange = true) :
    (∀ A : RegSet, (A.add e).get e.lane = A.get e.lane ||| shl64 e.mask e.shift ∧
      A.contains e = decide (shr64 (A.get e.lane) e.shift &&& e.mask = e.mask)) ∧
    e.shift < 64 ∧
    shr64 (shl64 e.mask e.shift) e.shift = e.mask ∧
    shl64 e.mask e.shift = e.mask <<< e.shift ∧
    (∀ v, e = .Rh v → e.shift + 4 = v ∧ e.shift < 4) := by
  refine ⟨fun A => ⟨RegSet.addAssign_get_own A e, RegSet.contains_eq_table A e⟩,
    (e.inRange_shift h).1, ?_, e.inRange_shl64 h, ?_⟩
  · rw [e.inRange_shl64 h, shr64, Nat.shiftLeft_shiftRight]
  · rintro v rfl
    simp only [Elem.inRange, Bool.and_eq_true, decide_eq_true_eq] at h
    obtain ⟨h4, h8⟩ := h
    interval_cases v <;> decide

/-- Witness of C18 at the high-byte register with value 7. -/
theorem shifts_in_range_witness :
    (Elem.Rh 7).shift < 64 ∧
    shr64 (shl64 (Elem.Rh 7).mask (Elem.Rh 7).shift) (Elem.Rh 7).shift = (Elem.Rh 7).mask ∧
    (Elem.Rh 7).shift + 4 = 7 :=
  have t := shifts_in_range (.Rh 7) (by decide)
  ⟨t.2.1, t.2.2.1, (t.2.2.2.2 7 rfl).1⟩

/-! ## Insertion as a union, containment under intersection -/

theorem RegSet.add_eq_or_singleton (A : RegSet) (e : Elem) :
    A.add e = A.or (RegSet.empty.add e) := by
  cases e <;>
    simp [RegSet.add, RegSet.addAssign, RegSet.or, RegSet.orAssign, RegSet.empty, Mask.EMPTY]

theorem RegSet.or_right_comm (A B C : RegSet) : (A.or B).or C = (A.or C).or B := by
  simp only [RegSet.or, RegSet.orAssign, RegSet.mk.injEq]
  refine ⟨?_, ?_, ?_, ?_⟩ <;>
    (rw [Nat.or_assoc, Nat.or_assoc]; exact congrArg _ (Nat.or_comm _ _))

/-- C19 (insertion is union with a singleton): for every set `A` and all
operands `e`, `f`: `A + e == A | (empty() + e)`, insertions commute,
`(A + e) + f == (A + f) + e`, and `operator+` returns the value that
`operator+=` leaves in its receiver. -/
theorem insert_is_union_with_singleton (A : RegSet) (e f : Elem) :
    (A.add e).eq (A.or (RegSet.empty.add e)) = true ∧
    ((A.add e).add f).eq ((A.add f).add e) = true ∧
    A.add e = A.addAssign e := by
  refine ⟨(RegSet.eq_iff _ _).mpr (RegSet.add_eq_or_singleton A e), ?_, rfl⟩
  rw [RegSet.eq_iff, RegSet.add_eq_or_singleton (A.add e) f, RegSet.add_eq_or_singleton A e,
    RegSet.add_eq_or_singleton (A.add f) e, RegSet.add_eq_or_singleton A f]
  exact RegSet.or_right_comm _ _ _

/-- C20 (containment commutes with intersection): for all sets `A`, `B` and
every operand `e` (in particular every operand with an in-range index),
`(A & B).contains(e)` is true if and only if `A.contains(e)` and
`B.contains(e)` are both true. -/
theorem contains_inter (A B : RegSet) (e : Elem) :
    (A.and B).contains e = (A.contains e && B.contains e) := by
  rw [RegSet.contains_eq_table, RegSet.contains_eq_table, RegSet.contains_eq_table,
    RegSet.and_get, ← Bool.decide_and, decide_eq_decide]
  exact shr_and_and_iff _ _ _ _

/-! ## Disjoint packing of the classes of lanes 2, 3 and 4 -/

set_option maxHeartbeats 4000000 in
theorem Elem.singletons_disjoint (e f : Elem) (he : e.inRange = true) (hf : f.inRange = true)
    (hl : e.lane = f.lane) (h1 : e.lane ≠ .g1) (hne : e ≠ f)
    (hx : ∀ i, ¬ (e = .Xmm i ∧ f = .Ymm i) ∧ ¬ (e = .Ymm i ∧ f = .Xmm i)) :
    ((RegSet.empty.add e).and (RegSet.empty.add f)).eq RegSet.empty = true := by
  rcases e with v | v | v | v | v | v | v | v | v | v | v | v | v | v | v | v | v | v | v | v
  case Rl => exact (h1 rfl).elim
  case Rh => exact (h1 rfl).elim
  case Rb => exact (h1 rfl).elim
  case R16 => exact (h1 rfl).elim
  case R32 => exact (h1 rfl).elim
  case R64 => exact (h1 rfl).elim
  all_goals
    rcases f with w | w | w | w | w | w | w | w | w | w | w | w | w | w | w | w | w | w | w | w
  all_goals first
    | exact Lane.noConfusion hl
    | (simp only [Elem.inRange, Bool.and_eq_true, decide_eq_true_eq] at he hf
       first
       | (subst he; subst hf; first | decide | exact absurd rfl hne)
       | (subst he; interval_cases w <;> decide)
       | (subst hf; interval_cases v <;> decide)
       | (interval_cases v <;> interval_cases w <;>
           first
           | decide
           | exact absurd rfl hne
           | exact absurd (And.intro rfl rfl) (hx _).1
           | exact absurd (And.intro rfl rfl) (hx _).2))

/-- C17 (classes packed into lanes 2, 3 and 4 never overlap): for any two
distinct in-range operands `e` and `f` whose classes live in the same lane
among lanes 2-4, the sets `empty() + e` and `empty() + f` have an empty
intersection, unless they are the alias pair `Xmm(i)` / `Ymm(i)` at one index
`i`; that pair does overlap for every `i` in 0..15. -/
theorem packed_classes_disjoint (e f : Elem) (he : e.inRange = true) (hf : f.inRange = true)
    (hl : e.lane = f.lane) (h1 : e.lane ≠ .g1) (hne : e ≠ f)
    (hx : ∀ i, ¬ (e = .Xmm i ∧ f = .Ymm i) ∧ ¬ (e = .Ymm i ∧ f = .Xmm i)) :
    ((RegSet.empty.add e).and (RegSet.empty.add f)).eq RegSet.empty = true ∧
    (∀ i, i < 16 →
      ((RegSet.empty.add (.Xmm i)).and (RegSet.empty.add (.Ymm i))).eq RegSet.empty = false) := by
  refine ⟨Elem.singletons_disjoint e f he hf hl h1 hne hx, ?_⟩
  intro i hi
  interval_cases i <;> decide

/-- Witness of C17 on `Xmm(3)` and `Ymm(4)`, two classes that alias only at
equal indices. -/
theorem packed_classes_disjoint_witness :
    ((RegSet.empty.add (.Xmm 3)).and (RegSet.empty.add (.Ymm 4))).eq RegSet.empty = true :=
  (packed_classes_disjoint (.Xmm 3) (.Ymm 4) (by decide) (by decide) (by decide) (by decide)
    (by decide)
    (fun i => ⟨fun h => by
      have h3 : 3 = i := Elem.Xmm.inj h.1
      have h4 : 4 = i := Elem.Ymm.inj h.2
      omega, fun h => Elem.noConfusion h.1⟩)).1

end x64asm
